import Mathlib

/-!
Verification of the `csgiro/monitor-hydric` water-quality monitor.

The Python sources are shallowly embedded below.  Machine floats are
modelled by `ℚ` (the arithmetic in the scorer and the parsers is exact
decimal arithmetic, which `ℚ` represents faithfully; non-finite floats
such as `inf`/`nan` produced by `float(...)` are outside the rational
model and are noted where relevant).  Fallible Python code is embedded
with `Option`/`Except`.
-/

namespace MonitorHydric

/-! ## `thingspeak_api.calcular_qualidade_agua` (src/thingspeak_api.py lines 194-248)

The four sub-scores are the in-line expressions of the source; the
top-level function performs the source's `None` defaulting
(`float(x) if x is not None else default`) and the equal-weight mean. -/

/-- Source line 218: `max(0, 100 - turbidez * 20) if turbidez <= 5 else 0`. -/
def turbidez_score (turbidez : ℚ) : ℚ :=
  if turbidez ≤ 5 then max 0 (100 - turbidez * 20) else 0

/-- Source lines 221-224: `100 - abs(ph - 7.0) * 20` when `6.0 <= ph <= 9.0`, else `0`. -/
def ph_score (ph : ℚ) : ℚ :=
  if 6 ≤ ph ∧ ph ≤ 9 then 100 - |ph - 7| * 20 else 0

/-- Source lines 227-230: `100 - abs(temperatura - 22.5) * 4` when `15 <= temperatura <= 30`, else `0`. -/
def temp_score (temperatura : ℚ) : ℚ :=
  if 15 ≤ temperatura ∧ temperatura ≤ 30 then 100 - |temperatura - 45/2| * 4 else 0

/-- Source lines 233-236: `max(0, 100 - solidos_dissolvidos / 10)` when `<= 1000`, else `0`. -/
def solidos_score (solidos_dissolvidos : ℚ) : ℚ :=
  if solidos_dissolvidos ≤ 1000 then max 0 (100 - solidos_dissolvidos / 10) else 0

/-- src/thingspeak_api.py lines 194-248.  `none` models Python `None`
(defaulted on lines 205-208); the result is the equal-weight mean of the
four sub-scores (line 239). -/
def calcular_qualidade_agua (turbidez ph temperatura solidos_dissolvidos : Option ℚ) : ℚ :=
  let t := turbidez.getD 0
  let p := ph.getD 7
  let te := temperatura.getD 25
  let s := solidos_dissolvidos.getD 0
  (turbidez_score t + ph_score p + temp_score te + solidos_score s) / 4

/-! Reference definition written from the spec's words, for the
refinement claim C1: "Turbidity: score = max(0, 100 − turbidity×20) if
turbidity ≤ 5, else 0; pH sub-score = 100 − |pH − 7.0|×20 if 6.0 ≤ pH ≤ 9.0,
else 0; temperature sub-score = 100 − |temperature − 22.5|×4 if
15 ≤ temperature ≤ 30, else 0; solids sub-score = max(0, 100 − solids/10)
if solids ≤ 1000, else 0; composite = unweighted mean of the four." -/

/-- Modelled from the spec: the documented piecewise reference composite. -/
def spec_reference_score (turbidity pH temperature solids : ℚ) : ℚ :=
  let tScore : ℚ := if turbidity ≤ 5 then max 0 (100 - turbidity * 20) else 0
  let pScore : ℚ := if 6 ≤ pH ∧ pH ≤ 9 then 100 - |pH - 7| * 20 else 0
  let teScore : ℚ := if 15 ≤ temperature ∧ temperature ≤ 30 then 100 - |temperature - 45/2| * 4 else 0
  let sScore : ℚ := if solids ≤ 1000 then max 0 (100 - solids / 10) else 0
  (tScore + pScore + teScore + sScore) / 4

end MonitorHydric

namespace MonitorHydric

/-! ## Python `float(...)` on strings, modelled over `ℚ`

Handles optional surrounding whitespace, an optional sign, a decimal
mantissa and an optional exponent, exactly the grammar Python's
`float` accepts for finite decimals.  (Non-finite spellings such as
`inf`, and underscore digit separators, are outside the rational
model and are not produced by this repository's data sources.) -/

/-- Python `str.strip` whitespace class (ASCII part of `\s`). -/
def isPySpace (c : Char) : Bool :=
  c = ' ' || c = '\t' || c = '\n' || c = '\r' || c = '\x0b' || c = '\x0c'

def digitsToNat (cs : List Char) : ℕ :=
  cs.foldl (fun a c => a * 10 + (c.toNat - 48)) 0

def allDigits (cs : List Char) : Bool :=
  cs.all Char.isDigit

def splitOnChar (sep : Char) : List Char → List (List Char)
  | [] => [[]]
  | c :: rest =>
    let r := splitOnChar sep rest
    if c = sep then [] :: r
    else
      match r with
      | [] => [[c]]
      | h :: t => (c :: h) :: t

/-- `ddd`, `ddd.ddd`, `ddd.`, `.ddd` (at least one digit, one dot at most). -/
def parseMantissa (cs : List Char) : Option ℚ :=
  match splitOnChar '.' cs with
  | [ip] =>
    if ip ≠ [] && allDigits ip then some (digitsToNat ip : ℚ) else none
  | [ip, fp] =>
    if (ip ≠ [] || fp ≠ []) && allDigits ip && allDigits fp then
      some ((digitsToNat (ip ++ fp) : ℚ) / (10 : ℚ) ^ fp.length)
    else none
  | _ => none

def parseSign : List Char → ℚ × List Char
  | '+' :: rest => (1, rest)
  | '-' :: rest => (-1, rest)
  | cs => (1, cs)

def parseExponent (cs : List Char) : Option ℤ :=
  match cs with
  | '+' :: ds => if ds ≠ [] && allDigits ds then some (digitsToNat ds : ℤ) else none
  | '-' :: ds => if ds ≠ [] && allDigits ds then some (-(digitsToNat ds : ℤ)) else none
  | ds => if ds ≠ [] && allDigits ds then some (digitsToNat ds : ℤ) else none

/-- Python `float(s)` for finite decimal strings; `none` models a raised
`ValueError`. -/
def pythonFloat (s : String) : Option ℚ :=
  let cs := ((s.toList.dropWhile isPySpace).reverse.dropWhile isPySpace).reverse
  let sc := parseSign cs
  let mr := sc.2.span (fun c => c ≠ 'e' && c ≠ 'E')
  match mr.2 with
  | [] => (parseMantissa mr.1).map (fun m => sc.1 * m)
  | _ :: expPart =>
    match parseMantissa mr.1, parseExponent expPart with
    | some m, some e => some (sc.1 * m * (10 : ℚ) ^ e)
    | _, _ => none

/-! ## `thingspeak_api.processar_dados_thingspeak` (lines 101-146) and
`safe_float` (lines 128-134)

A ThingSpeak feed row carries the raw string cells of `field1..field4`
(`none` models a missing/null cell); the frame records which `field`
columns the DataFrame has.  Rows are kept in feed order, so
`iloc[-1]` is the last list entry. -/

structure TSRow where
  field1 : Option String
  field2 : Option String
  field3 : Option String
  field4 : Option String
deriving DecidableEq

structure TSFrame where
  hasField1 : Bool
  hasField2 : Bool
  hasField3 : Bool
  hasField4 : Bool
  rows : List TSRow
deriving DecidableEq

structure DadosProcessados where
  turbidez : ℚ
  ph : ℚ
  temperatura : ℚ
  solidos_dissolvidos : ℚ
deriving DecidableEq

/-- Python `str.lower` (ASCII letters; the tokens compared in this
repository are ASCII). -/
def pyLower (s : String) : String :=
  String.mk (s.toList.map Char.toLower)

/-- src/thingspeak_api.py lines 128-134: default when the value is
`None`, the empty string or (case-insensitively) `nan`, or when
`float(value)` raises; otherwise the parsed number. -/
def safe_float (value : Option String) (default : ℚ) : ℚ :=
  match value with
  | none => default
  | some s =>
    if s = "" ∨ pyLower s = "nan" then default
    else (pythonFloat s).getD default

/-- src/thingspeak_api.py lines 101-146: `none` for a missing or empty
frame (the source returns `None` there), otherwise the last row mapped
through `safe_float` with the documented defaults, guarded by column
presence. -/
def processar_dados_thingspeak (df : Option TSFrame) : Option DadosProcessados :=
  match df with
  | none => none
  | some f =>
    if f.rows.isEmpty then none
    else
      let r := f.rows.getLastD ⟨none, none, none, none⟩
      some
        { turbidez := if f.hasField1 then safe_float r.field1 0 else 0
          ph := if f.hasField2 then safe_float r.field2 7 else 7
          temperatura := if f.hasField3 then safe_float r.field3 25 else 25
          solidos_dissolvidos := if f.hasField4 then safe_float r.field4 0 else 0 }

/-! ## `thingspeak_api.buscar_dados_thingspeak` (lines 24-72)

The HTTP interaction is modelled by its outcome: a raised
`requests` exception (network error, timeout, or the non-2xx raised by
`raise_for_status`), a 2xx body that fails JSON decoding, or decoded
JSON whose `feeds` key is absent (`none`) or holds a row list. -/

inductive FetchOutcome where
  | requestError
  | jsonError
  | success (feeds : Option (List TSRow))

/-- Column presence of the DataFrame built from a feed list: pandas
creates a column when any record carries the key. -/
def frameOfFeeds (feeds : List TSRow) : TSFrame :=
  { hasField1 := feeds.any (fun r => r.field1.isSome)
    hasField2 := feeds.any (fun r => r.field2.isSome)
    hasField3 := feeds.any (fun r => r.field3.isSome)
    hasField4 := feeds.any (fun r => r.field4.isSome)
    rows := feeds }

/-- src/thingspeak_api.py lines 24-72: `(frame, success)` pair; every
exception path and the missing/empty `feeds` path yield `(none, false)`. -/
def buscar_dados_thingspeak (outcome : FetchOutcome) : Option TSFrame × Bool :=
  match outcome with
  | .requestError => (none, false)
  | .jsonError => (none, false)
  | .success none => (none, false)
  | .success (some feeds) =>
    if feeds.length > 0 then (some (frameOfFeeds feeds), true) else (none, false)

/-! ## `notifications_handler.parse_notification_params` (src/notifications_handler.py lines 171-225)

The four `re.search` calls use the literal patterns
`[Tt]urbitidy:\s*([\d.]+)`, `pH:\s*([\d.]+)`, `[Tt]emperature:\s*([\d.]+)`,
`TDS:\s*([\d.]+)`.  A pattern is a list of per-position character sets;
the searcher tries every start position left to right (Python's leftmost
match) and the capture group takes the maximal run of `[\d.]` after
skipping `\s*` (greedy; the two classes are disjoint, so no
backtracking arises).  The `Data/Hora` display formatting of the
timestamp (lines 215-223) touches no claim and is not modelled. -/

structure Notification where
  subject : String
  message : String
  timestamp : String
deriving DecidableEq

inductive ParamValue where
  | na
  | num (q : ℚ)
deriving DecidableEq

structure NotificationParams where
  assunto : String
  turbidez : ParamValue
  ph : ParamValue
  temperatura : ParamValue
  tds : ParamValue
deriving DecidableEq

def isDigitOrDot (c : Char) : Bool :=
  c.isDigit || c = '.'

/-- Match the per-position character sets at the head of the input,
returning the remaining input. -/
def matchSets : List (List Char) → List Char → Option (List Char)
  | [], rest => some rest
  | _ :: _, [] => none
  | s :: ps, c :: cs => if s.contains c then matchSets ps cs else none

/-- `\s*([\d.]+)`: skip whitespace, then capture a nonempty maximal run
of digits and dots. -/
def captureNumber (rest : List Char) : Option String :=
  let afterSpaces := rest.dropWhile isPySpace
  let num := afterSpaces.takeWhile isDigitOrDot
  if num.isEmpty then none else some (String.mk num)

def tryMatchAt (ps : List (List Char)) (cs : List Char) : Option String :=
  match matchSets ps cs with
  | some rest => captureNumber rest
  | none => none

/-- `re.search`: leftmost position whose full pattern (token sets, then
`\s*([\d.]+)`) matches; returns the captured group. -/
def reSearch (ps : List (List Char)) : List Char → Option String
  | [] => none
  | c :: cs =>
    match tryMatchAt ps (c :: cs) with
    | some r => some r
    | none => reSearch ps cs

def litChars (s : String) : List (List Char) :=
  s.toList.map (fun c => [c])

def turbPattern : List (List Char) := ['T', 't'] :: litChars "urbitidy:"

def phPattern : List (List Char) := litChars "pH:"

def tempPattern : List (List Char) := ['T', 't'] :: litChars "emperature:"

def tdsPattern : List (List Char) := litChars "TDS:"

/-- One token extraction: `N/A` when the pattern is absent, the parsed
number when present; `float(match.group(1))` raising `ValueError`
(capture like `1.2.3`) propagates, modelled by `Except.error`. -/
def extractParam (ps : List (List Char)) (msg : List Char) : Except Unit ParamValue :=
  match reSearch ps msg with
  | none => .ok .na
  | some cap =>
    match pythonFloat cap with
    | some q => .ok (.num q)
    | none => .error ()

/-- src/notifications_handler.py lines 171-225: the params dict keyed
`Assunto` / `Turbidez (NTU)` / `pH` / `Temperatura (°C)` / `TDS (mg/L)`,
extracted in source order. -/
def parse_notification_params (n : Notification) : Except Unit NotificationParams := do
  let msg := n.message.toList
  let tur ← extractParam turbPattern msg
  let ph ← extractParam phPattern msg
  let tem ← extractParam tempPattern msg
  let tds ← extractParam tdsPattern msg
  return ⟨n.subject, tur, ph, tem, tds⟩

/-! ## `notifications_handler.get_all_notifications` (src/notifications_handler.py lines 85-152)

The SQS service is modelled by the behaviour the loop observes: the
batch (or raised exception) each successive `receive_message` call
returns, and the outcome of each `delete_message` call.  `json.loads`
plus the `Subject`/`Message`/`Timestamp` lookups are modelled by an
abstract body parser (`none` models a raised `JSONDecodeError`).  The
while-loop is embedded with a fuel argument for totality; the theorems
show the result is fuel-independent once any receive call returns a
non-full batch. -/

structure SQSMessage where
  receiptHandle : String
  body : String
deriving DecidableEq

structure SNSEnvelope where
  subject : Option String
  message : Option String
  timestamp : Option String
deriving DecidableEq

/-- `receiveMessage i k`: the batch returned by the `i`-th receive call
requesting up to `k` messages, or a raised exception; `deleteMessage h`:
outcome of deleting receipt handle `h`. -/
structure SQSClient where
  receiveMessage : ℕ → ℕ → Except Unit (List SQSMessage)
  deleteMessage : String → Except Unit Unit

/-- Loop bookkeeping: the collected notifications, the receipt handles
passed to `delete_message` (in order), those whose delete call
succeeded, the per-call requested message counts, and every message
received (in receipt order). -/
structure PollState where
  notifications : List Notification
  delIssued : List String
  delSucceeded : List String
  callsMade : List ℕ
  consumed : List SQSMessage
deriving DecidableEq

/-- Lines 126-134: `.get('Subject', 'Sem Assunto')` etc. -/
def envToNotification (env : SNSEnvelope) : Notification :=
  ⟨env.subject.getD "Sem Assunto", env.message.getD "Sem Mensagem", env.timestamp.getD ""⟩

/-- Lines 117-143, one message of a batch: on a body-parse failure the
inner `except` skips the message; otherwise the notification is
appended, then `delete_message` is issued, and the inner `except` also
absorbs a failed delete. -/
def processMessage (jsonLoads : String → Option SNSEnvelope)
    (del : String → Except Unit Unit) (st : PollState) (m : SQSMessage) : PollState :=
  match jsonLoads m.body with
  | none => st
  | some env =>
    let st1 : PollState := { st with
      notifications := st.notifications ++ [envToNotification env],
      delIssued := st.delIssued ++ [m.receiptHandle] }
    match del m.receiptHandle with
    | .ok _ => { st1 with delSucceeded := st1.delSucceeded ++ [m.receiptHandle] }
    | .error _ => st1

def processBatch (jsonLoads : String → Option SNSEnvelope)
    (del : String → Except Unit Unit) (st : PollState) (msgs : List SQSMessage) : PollState :=
  msgs.foldl (processMessage jsonLoads del) st

/-- Lines 104-147: receive up to `k`; stop on a raised receive (outer
`except`, keeping what was collected), on an absent `Messages` key
(empty batch), or after processing a batch shorter than requested. -/
def pollLoop (client : SQSClient) (jsonLoads : String → Option SNSEnvelope) (k : ℕ) :
    ℕ → PollState → PollState
  | 0, st => st
  | fuel + 1, st =>
    let idx := st.callsMade.length
    let st1 : PollState := { st with callsMade := st.callsMade ++ [k] }
    match client.receiveMessage idx k with
    | .error _ => st1
    | .ok msgs =>
      if msgs.isEmpty then st1
      else
        let st2 := processBatch jsonLoads client.deleteMessage
          { st1 with consumed := st1.consumed ++ msgs } msgs
        if msgs.length < k then st2
        else pollLoop client jsonLoads k fuel st2

def initPollState : PollState := ⟨[], [], [], [], []⟩

/-- Line 102: `max_per_batch = min(max_messages, 10)`, then the loop. -/
def runPoll (client : SQSClient) (jsonLoads : String → Option SNSEnvelope)
    (max_messages fuel : ℕ) : PollState :=
  pollLoop client jsonLoads (min max_messages 10) fuel initPollState

/-- Lines 85-152: `[]` when the client was never initialized (line
95-96), else the collected notification list. -/
def get_all_notifications (clientOpt : Option SQSClient)
    (jsonLoads : String → Option SNSEnvelope) (max_messages fuel : ℕ) : List Notification :=
  match clientOpt with
  | none => []
  | some client => (runPoll client jsonLoads max_messages fuel).notifications

/-- Call `i` keeps the loop going: it returns a nonempty batch of at
least the requested size. -/
def fullBatch (client : SQSClient) (k i : ℕ) : Bool :=
  match client.receiveMessage i k with
  | .ok msgs => !msgs.isEmpty && decide (k ≤ msgs.length)
  | .error _ => false

/-- Whether the collected notification corresponds to a parsed body. -/
def bodyParses (jsonLoads : String → Option SNSEnvelope) (m : SQSMessage) : Bool :=
  (jsonLoads m.body).isSome

/-- Concrete client for counterexamples: one good message whose delete
call always raises. -/
def delFailClient : SQSClient :=
  { receiveMessage := fun i _ => if i = 0 then .ok [⟨"rh1", "body1"⟩] else .ok []
    deleteMessage := fun _ => .error () }

/-- Concrete client whose deletes succeed. -/
def delOkClient : SQSClient :=
  { receiveMessage := fun i _ => if i = 0 then .ok [⟨"rh1", "body1"⟩] else .ok []
    deleteMessage := fun _ => .ok () }

/-- Concrete body parser accepting everything. -/
def jsonLoadsConst : String → Option SNSEnvelope :=
  fun _ => some ⟨some "S", some "M", some "T"⟩

/-- Concrete body parser rejecting everything. -/
def jsonLoadsNone : String → Option SNSEnvelope :=
  fun _ => none

/-- Concrete client whose receive calls always raise. -/
def errClient : SQSClient :=
  { receiveMessage := fun _ _ => .error ()
    deleteMessage := fun _ => .ok () }

/-! ## `streamlit_app.combinar_dados_mockados_e_reais` (src/streamlit_app.py lines 182-262)

Only the merge of the two time-indexed frames (lines 239-250) is
modelled; the mocked frame is generated internally by an RNG in the
source and is passed here as an explicit argument, and the
current-value selection around the merge touches no claim.  A frame is
a list of (timestamp, row) samples; timestamps are integers (epoch
instants).  `df.loc[idx] = ...` on a present index is the overwrite,
`idx > df_combinado.index.max()` guards the append against the current
combined frame, and `sort_index()` re-sorts at the end. -/

structure QRow where
  turbidez : ℚ
  ph : ℚ
  temperatura : ℚ
  solidos : ℚ
deriving DecidableEq

abbrev Series := List (ℤ × QRow)

/-- Line 245: `df_combinado.loc[idx] = df_qualidade_real.loc[idx]`. -/
def overwriteAt (t : ℤ) (r : QRow) (comb : Series) : Series :=
  comb.map (fun p => if p.1 = t then (p.1, r) else p)

/-- `index.max()` of a (possibly empty) index. -/
def keysMax : List ℤ → Option ℤ
  | [] => none
  | t :: ts =>
    match keysMax ts with
    | none => some t
    | some m => some (max t m)

/-- Lines 242-248, one iteration of `for idx in df_qualidade_real.index`. -/
def mergeStep (comb : Series) (p : ℤ × QRow) : Series :=
  if p.1 ∈ comb.map Prod.fst then overwriteAt p.1 p.2 comb
  else
    match keysMax (comb.map Prod.fst) with
    | some m => if m < p.1 then comb ++ [p] else comb
    | none => comb

def insertByTime (p : ℤ × QRow) : Series → Series
  | [] => [p]
  | q :: qs => if p.1 ≤ q.1 then p :: q :: qs else q :: insertByTime p qs

/-- Line 250: `df_combinado.sort_index()` (insertion sort by timestamp). -/
def sort_index (s : Series) : Series :=
  s.foldr insertByTime []

/-- Lines 239-250: start from the mocked frame, fold the real samples
through the overwrite/append step, then re-sort by timestamp. -/
def combinar_dados_mockados_e_reais (mock real : Series) : Series :=
  sort_index (real.foldl mergeStep mock)

lemma pythonFloat_320 : pythonFloat "3.20" = some (16/5) := by
  have h : splitOnChar '.' ['3', '.', '2', '0'] = [['3'], ['2', '0']] := by decide
  simp [pythonFloat, parseSign, parseMantissa, isPySpace, List.dropWhile, List.span,
    List.span.loop, h, allDigits, digitsToNat]
  norm_num

lemma pythonFloat_710 : pythonFloat "7.10" = some (71/10) := by
  have h : splitOnChar '.' ['7', '.', '1', '0'] = [['7'], ['1', '0']] := by decide
  simp [pythonFloat, parseSign, parseMantissa, isPySpace, List.dropWhile, List.span,
    List.span.loop, h, allDigits, digitsToNat]
  norm_num

lemma pythonFloat_245 : pythonFloat "24.5" = some (49/2) := by
  have h : splitOnChar '.' ['2', '4', '.', '5'] = [['2', '4'], ['5']] := by decide
  simp [pythonFloat, parseSign, parseMantissa, isPySpace, List.dropWhile, List.span,
    List.span.loop, h, allDigits, digitsToNat]
  norm_num

lemma pythonFloat_410 : pythonFloat "410" = some 410 := by
  have h : splitOnChar '.' ['4', '1', '0'] = [['4', '1', '0']] := by decide
  simp [pythonFloat, parseSign, parseMantissa, isPySpace, List.dropWhile, List.span,
    List.span.loop, h, allDigits, digitsToNat]

lemma extractParam_of_none {ps : List (List Char)} {msg : List Char}
    (h : reSearch ps msg = none) : extractParam ps msg = .ok .na := by
  simp [extractParam, h]

lemma extractParam_of_some {ps : List (List Char)} {msg : List Char} {cap : String} {q : ℚ}
    (h : reSearch ps msg = some cap) (hf : pythonFloat cap = some q) :
    extractParam ps msg = .ok (.num q) := by
  simp [extractParam, h, hf]

/-- A successful extraction is `na` exactly on a failed search, and the
parsed capture on a successful search. -/
lemma extract_spec {ps : List (List Char)} {msg : List Char} {v : ParamValue}
    (h : extractParam ps msg = .ok v) :
    (reSearch ps msg = none → v = .na) ∧
    (∀ cap, reSearch ps msg = some cap →
      ∃ q, pythonFloat cap = some q ∧ v = .num q) := by
  cases hs : reSearch ps msg with
  | none =>
    refine ⟨fun _ => ?_, fun cap hcap => absurd hcap (by simp)⟩
    simp only [extractParam, hs, Except.ok.injEq] at h
    exact h.symm
  | some cap =>
    refine ⟨fun hnone => absurd hnone (by simp), fun cap' hcap => ?_⟩
    obtain rfl : cap = cap' := Option.some.inj hcap
    cases hf : pythonFloat cap with
    | none => simp [extractParam, hs, hf] at h
    | some q =>
      simp only [extractParam, hs, hf, Except.ok.injEq] at h
      exact ⟨q, rfl, h.symm⟩

/-- A parse is determined by its four token extractions. -/
lemma parse_eq_of_extracts {subj msg ts : String} {a b c d : ParamValue}
    (e1 : extractParam turbPattern msg.toList = .ok a)
    (e2 : extractParam phPattern msg.toList = .ok b)
    (e3 : extractParam tempPattern msg.toList = .ok c)
    (e4 : extractParam tdsPattern msg.toList = .ok d) :
    parse_notification_params ⟨subj, msg, ts⟩ = .ok ⟨subj, a, b, c, d⟩ := by
  unfold parse_notification_params
  dsimp only []
  rw [e1]
  dsimp only [bind, Except.bind]
  rw [e2]
  dsimp only [bind, Except.bind]
  rw [e3]
  dsimp only [bind, Except.bind]
  rw [e4]
  rfl

/-- A successful parse pins each component to its token extraction. -/
lemma parse_ok_components {n : Notification} {p : NotificationParams}
    (h : parse_notification_params n = .ok p) :
    extractParam turbPattern n.message.toList = .ok p.turbidez ∧
    extractParam phPattern n.message.toList = .ok p.ph ∧
    extractParam tempPattern n.message.toList = .ok p.temperatura ∧
    extractParam tdsPattern n.message.toList = .ok p.tds ∧
    p.assunto = n.subject := by
  simp only [parse_notification_params, bind, Except.bind] at h
  cases h1 : extractParam turbPattern n.message.toList with
  | error e => rw [h1] at h; exact absurd h (by simp)
  | ok tur =>
    rw [h1] at h
    cases h2 : extractParam phPattern n.message.toList with
    | error e => rw [h2] at h; exact absurd h (by simp)
    | ok ph =>
      rw [h2] at h
      cases h3 : extractParam tempPattern n.message.toList with
      | error e => rw [h3] at h; exact absurd h (by simp)
      | ok tem =>
        rw [h3] at h
        cases h4 : extractParam tdsPattern n.message.toList with
        | error e => rw [h4] at h; exact absurd h (by simp)
        | ok tds =>
          rw [h4] at h
          simp only [pure, Except.pure, Except.ok.injEq] at h
          rw [← h]
          exact ⟨rfl, rfl, rfl, rfl, rfl⟩

/-- C3: the token extractor parses the documented message into the four
numeric values; a message without the pH token parses it as `N/A`; and
for every notification whose parse returns, each token is the decimal
number following its pattern when the pattern is found and `N/A` when it
is not. -/
theorem parse_notification_params_extraction :
    parse_notification_params
        ⟨"Alerta", "Turbitidy: 3.20, pH: 7.10, Temperature: 24.5, TDS: 410", ""⟩ =
      .ok ⟨"Alerta", .num (16/5), .num (71/10), .num (49/2), .num 410⟩ ∧
    parse_notification_params
        ⟨"Alerta", "Turbitidy: 3.20, Temperature: 24.5, TDS: 410", ""⟩ =
      .ok ⟨"Alerta", .num (16/5), .na, .num (49/2), .num 410⟩ ∧
    (∀ n p, parse_notification_params n = .ok p →
      (reSearch turbPattern n.message.toList = none → p.turbidez = .na) ∧
      (reSearch phPattern n.message.toList = none → p.ph = .na) ∧
      (reSearch tempPattern n.message.toList = none → p.temperatura = .na) ∧
      (reSearch tdsPattern n.message.toList = none → p.tds = .na) ∧
      (∀ cap, reSearch turbPattern n.message.toList = some cap →
        ∃ q, pythonFloat cap = some q ∧ p.turbidez = .num q) ∧
      (∀ cap, reSearch phPattern n.message.toList = some cap →
        ∃ q, pythonFloat cap = some q ∧ p.ph = .num q) ∧
      (∀ cap, reSearch tempPattern n.message.toList = some cap →
        ∃ q, pythonFloat cap = some q ∧ p.temperatura = .num q) ∧
      (∀ cap, reSearch tdsPattern n.message.toList = some cap →
        ∃ q, pythonFloat cap = some q ∧ p.tds = .num q)) := by
  refine ⟨?_, ?_, ?_⟩
  · have e1 : extractParam turbPattern
        ("Turbitidy: 3.20, pH: 7.10, Temperature: 24.5, TDS: 410".toList) =
        .ok (.num (16/5)) := extractParam_of_some (by decide) pythonFloat_320
    have e2 : extractParam phPattern
        ("Turbitidy: 3.20, pH: 7.10, Temperature: 24.5, TDS: 410".toList) =
        .ok (.num (71/10)) := extractParam_of_some (by decide) pythonFloat_710
    have e3 : extractParam tempPattern
        ("Turbitidy: 3.20, pH: 7.10, Temperature: 24.5, TDS: 410".toList) =
        .ok (.num (49/2)) := extractParam_of_some (by decide) pythonFloat_245
    have e4 : extractParam tdsPattern
        ("Turbitidy: 3.20, pH: 7.10, Temperature: 24.5, TDS: 410".toList) =
        .ok (.num 410) := extractParam_of_some (by decide) pythonFloat_410
    exact parse_eq_of_extracts e1 e2 e3 e4
  · have e1 : extractParam turbPattern
        ("Turbitidy: 3.20, Temperature: 24.5, TDS: 410".toList) =
        .ok (.num (16/5)) := extractParam_of_some (by decide) pythonFloat_320
    have e2 : extractParam phPattern
        ("Turbitidy: 3.20, Temperature: 24.5, TDS: 410".toList) =
        .ok .na := extractParam_of_none (by decide)
    have e3 : extractParam tempPattern
        ("Turbitidy: 3.20, Temperature: 24.5, TDS: 410".toList) =
        .ok (.num (49/2)) := extractParam_of_some (by decide) pythonFloat_245
    have e4 : extractParam tdsPattern
        ("Turbitidy: 3.20, Temperature: 24.5, TDS: 410".toList) =
        .ok (.num 410) := extractParam_of_some (by decide) pythonFloat_410
    exact parse_eq_of_extracts e1 e2 e3 e4
  · intro n p h
    obtain ⟨h1, h2, h3, h4, _⟩ := parse_ok_components h
    obtain ⟨n1, s1⟩ := extract_spec h1
    obtain ⟨n2, s2⟩ := extract_spec h2
    obtain ⟨n3, s3⟩ := extract_spec h3
    obtain ⟨n4, s4⟩ := extract_spec h4
    exact ⟨n1, n2, n3, n4, s1, s2, s3, s4⟩

/-- Witness for `parse_notification_params_extraction`, discharging the
found and not-found hypotheses at the two documented messages. -/
theorem parse_notification_params_extraction_witness :
    (∃ q, pythonFloat "3.20" = some q ∧
      (NotificationParams.mk "Alerta" (.num (16/5)) (.num (71/10)) (.num (49/2)) (.num 410)).turbidez =
        .num q) ∧
    (NotificationParams.mk "Alerta" (.num (16/5)) .na (.num (49/2)) (.num 410)).ph = .na := by
  constructor
  · exact (parse_notification_params_extraction.2.2
      ⟨"Alerta", "Turbitidy: 3.20, pH: 7.10, Temperature: 24.5, TDS: 410", ""⟩
      ⟨"Alerta", .num (16/5), .num (71/10), .num (49/2), .num 410⟩
      parse_notification_params_extraction.1).2.2.2.2.1 "3.20" (by decide)
  · exact (parse_notification_params_extraction.2.2
      ⟨"Alerta", "Turbitidy: 3.20, Temperature: 24.5, TDS: 410", ""⟩
      ⟨"Alerta", .num (16/5), .na, .num (49/2), .num 410⟩
      parse_notification_params_extraction.2.1).2.1 (by decide)

/-- C4 counterexample: changing `pH:` to `PH:` in the message body
changes the extraction (found vs not found), so the token searches are
not case-insensitive. -/
theorem parse_token_case_counterexample :
    reSearch phPattern "pH: 7.1".toList = some "7.1" ∧
    reSearch phPattern "PH: 7.1".toList = none ∧
    parse_notification_params ⟨"A", "PH: 7.1", ""⟩ = .ok ⟨"A", .na, .na, .na, .na⟩ := by
  refine ⟨by decide, by decide, ?_⟩
  have e1 : extractParam turbPattern ("PH: 7.1".toList) = .ok .na :=
    extractParam_of_none (by decide)
  have e2 : extractParam phPattern ("PH: 7.1".toList) = .ok .na :=
    extractParam_of_none (by decide)
  have e3 : extractParam tempPattern ("PH: 7.1".toList) = .ok .na :=
    extractParam_of_none (by decide)
  have e4 : extractParam tdsPattern ("PH: 7.1".toList) = .ok .na :=
    extractParam_of_none (by decide)
  exact parse_eq_of_extracts e1 e2 e3 e4

/-- C4 (amended): only the leading letter of `turbitidy:` and
`temperature:` is case-flexible; `pH:` and `TDS:` match only in exactly
those casings. -/
theorem parse_token_casing :
    reSearch turbPattern "Turbitidy: 3.2".toList = some "3.2" ∧
    reSearch turbPattern "turbitidy: 3.2".toList = some "3.2" ∧
    reSearch turbPattern "TURBITIDY: 3.2".toList = none ∧
    reSearch tempPattern "Temperature: 24.5".toList = some "24.5" ∧
    reSearch tempPattern "temperature: 24.5".toList = some "24.5" ∧
    reSearch tempPattern "TEMPERATURE: 24.5".toList = none ∧
    reSearch phPattern "pH: 7.1".toList = some "7.1" ∧
    reSearch phPattern "Ph: 7.1".toList = none ∧
    reSearch phPattern "ph: 7.1".toList = none ∧
    reSearch tdsPattern "TDS: 410".toList = some "410" ∧
    reSearch tdsPattern "tds: 410".toList = none ∧
    reSearch tdsPattern "Tds: 410".toList = none := by
  decide

/-- C1: the implemented scorer agrees with the documented piecewise
reference definition on every numeric input, and each out-of-range
metric gets sub-score exactly 0. -/
theorem calcular_qualidade_matches_spec (t p te s : ℚ) :
    calcular_qualidade_agua (some t) (some p) (some te) (some s) =
      spec_reference_score t p te s ∧
    (5 < t → turbidez_score t = 0) ∧
    ((p < 6 ∨ 9 < p) → ph_score p = 0) ∧
    ((te < 15 ∨ 30 < te) → temp_score te = 0) ∧
    (1000 < s → solidos_score s = 0) := by
  refine ⟨rfl, ?_, ?_, ?_, ?_⟩
  · intro h
    simp [turbidez_score, not_le.mpr h]
  · intro h
    have : ¬ (6 ≤ p ∧ p ≤ 9) := by
      rcases h with h | h
      · exact fun hc => absurd hc.1 (not_le.mpr h)
      · exact fun hc => absurd hc.2 (not_le.mpr h)
    simp [ph_score, this]
  · intro h
    have : ¬ (15 ≤ te ∧ te ≤ 30) := by
      rcases h with h | h
      · exact fun hc => absurd hc.1 (not_le.mpr h)
      · exact fun hc => absurd hc.2 (not_le.mpr h)
    simp [temp_score, this]
  · intro h
    simp [solidos_score, not_le.mpr h]

/-- Witness for `calcular_qualidade_matches_spec` at concrete inputs. -/
theorem calcular_qualidade_matches_spec_witness :
    calcular_qualidade_agua (some 6) (some 5) (some 31) (some 1001) =
      spec_reference_score 6 5 31 1001 ∧
    turbidez_score 6 = 0 ∧ ph_score 5 = 0 ∧ temp_score 31 = 0 ∧
    solidos_score 1001 = 0 := by
  obtain ⟨h1, h2, h3, h4, h5⟩ := calcular_qualidade_matches_spec 6 5 31 1001
  exact ⟨h1, h2 (by norm_num), h3 (Or.inl (by norm_num)),
    h4 (Or.inr (by norm_num)), h5 (by norm_num)⟩

/-- C2 counterexample: at turbidity = −10 (pH 7, temperature 22.5,
solids 0) the composite is 150, outside [0, 100]: the claim's "any
numeric values" range bound fails on negative turbidity. -/
theorem composite_range_counterexample :
    calcular_qualidade_agua (some (-10)) (some 7) (some (45/2)) (some 0) = 150 ∧
    ¬ calcular_qualidade_agua (some (-10)) (some 7) (some (45/2)) (some 0) ≤ 100 := by
  constructor
  · norm_num [calcular_qualidade_agua, turbidez_score, ph_score, temp_score,
      solidos_score, abs_of_nonneg]
  · norm_num [calcular_qualidade_agua, turbidez_score, ph_score, temp_score,
      solidos_score, abs_of_nonneg]

/-- C2 (amended): for nonnegative turbidity and solids (pH and
temperature unrestricted) the composite lies in [0, 100]; at the ideal
point (0, 7.0, 22.5, 0) it is exactly 100. -/
theorem composite_in_range (t p te s : ℚ) (ht : 0 ≤ t) (hs : 0 ≤ s) :
    (0 ≤ calcular_qualidade_agua (some t) (some p) (some te) (some s) ∧
      calcular_qualidade_agua (some t) (some p) (some te) (some s) ≤ 100) ∧
    calcular_qualidade_agua (some 0) (some 7) (some (45/2)) (some 0) = 100 := by
  have htb : 0 ≤ turbidez_score t ∧ turbidez_score t ≤ 100 := by
    unfold turbidez_score
    split
    · constructor
      · exact le_max_left 0 _
      · have : (100 : ℚ) - t * 20 ≤ 100 := by nlinarith
        exact max_le (by norm_num) this
    · norm_num
  have hph : 0 ≤ ph_score p ∧ ph_score p ≤ 100 := by
    unfold ph_score
    split
    · rename_i h
      rcases abs_cases (p - 7) with ⟨he, _⟩ | ⟨he, _⟩ <;>
        constructor <;> nlinarith [h.1, h.2]
    · norm_num
  have hte : 0 ≤ temp_score te ∧ temp_score te ≤ 100 := by
    unfold temp_score
    split
    · rename_i h
      rcases abs_cases (te - 45/2) with ⟨he, _⟩ | ⟨he, _⟩ <;>
        constructor <;> nlinarith [h.1, h.2]
    · norm_num
  have hso : 0 ≤ solidos_score s ∧ solidos_score s ≤ 100 := by
    unfold solidos_score
    split
    · constructor
      · exact le_max_left 0 _
      · have : (100 : ℚ) - s / 10 ≤ 100 := by nlinarith
        exact max_le (by norm_num) this
    · norm_num
  refine ⟨⟨?_, ?_⟩, ?_⟩
  · unfold calcular_qualidade_agua
    simp only [Option.getD_some]
    nlinarith [htb.1, hph.1, hte.1, hso.1]
  · unfold calcular_qualidade_agua
    simp only [Option.getD_some]
    nlinarith [htb.2, hph.2, hte.2, hso.2]
  · norm_num [calcular_qualidade_agua, turbidez_score, ph_score, temp_score,
      solidos_score]

/-- Witness for `composite_in_range` at concrete inputs. -/
theorem composite_in_range_witness :
    (0 ≤ calcular_qualidade_agua (some 3) (some 8) (some 20) (some 400) ∧
      calcular_qualidade_agua (some 3) (some 8) (some 20) (some 400) ≤ 100) ∧
    calcular_qualidade_agua (some 0) (some 7) (some (45/2)) (some 0) = 100 :=
  composite_in_range 3 8 20 400 (by norm_num) (by norm_num)

/-- C7: the normalizer takes the last sample, maps `field1..field4` to
the four metrics with defaults 0 / 7.0 / 25 / 0, where `safe_float`
substitutes the default exactly when the cell is missing, empty,
case-insensitively `NaN`, or non-numeric; a frame whose only row has no
field data yields exactly the documented defaults. -/
theorem processar_dados_normalizes (f : TSFrame) (hne : f.rows ≠ [])
    (s : String) (d q : ℚ) :
    (processar_dados_thingspeak (some f) =
      some
        { turbidez :=
            if f.hasField1 then safe_float (f.rows.getLastD ⟨none, none, none, none⟩).field1 0 else 0
          ph :=
            if f.hasField2 then safe_float (f.rows.getLastD ⟨none, none, none, none⟩).field2 7 else 7
          temperatura :=
            if f.hasField3 then safe_float (f.rows.getLastD ⟨none, none, none, none⟩).field3 25 else 25
          solidos_dissolvidos :=
            if f.hasField4 then safe_float (f.rows.getLastD ⟨none, none, none, none⟩).field4 0 else 0 }) ∧
    safe_float none d = d ∧
    safe_float (some "") d = d ∧
    (pyLower s = "nan" → safe_float (some s) d = d) ∧
    (pythonFloat s = none → safe_float (some s) d = d) ∧
    (s ≠ "" → pyLower s ≠ "nan" → pythonFloat s = some q → safe_float (some s) d = q) ∧
    processar_dados_thingspeak
      (some ⟨true, true, true, true, [⟨none, none, none, none⟩]⟩) =
      some ⟨0, 7, 25, 0⟩ := by
  refine ⟨?_, rfl, rfl, ?_, ?_, ?_, rfl⟩
  · have : f.rows.isEmpty = false := by
      cases hrows : f.rows with
      | nil => exact absurd hrows hne
      | cons a l => rfl
    simp [processar_dados_thingspeak, this]
  · intro h
    by_cases hemp : s = "" <;> simp [safe_float, hemp, h]
  · intro h
    by_cases hemp : s = "" <;> by_cases hnan : pyLower s = "nan" <;>
      simp [safe_float, hemp, hnan, h]
  · intro hemp hnan h
    simp [safe_float, hemp, hnan, h]

/-- Witness for `processar_dados_normalizes` at a concrete frame and
cell values. -/
theorem processar_dados_normalizes_witness :
    (processar_dados_thingspeak
      (some ⟨true, true, true, true,
        [⟨some "1.5", some "NaN", some "abc", none⟩]⟩) =
      some
        { turbidez := if true then safe_float (some "1.5") 0 else 0
          ph := if true then safe_float (some "NaN") 7 else 7
          temperatura := if true then safe_float (some "abc") 25 else 25
          solidos_dissolvidos := if true then safe_float none 0 else 0 }) ∧
    safe_float none 3 = 3 ∧
    safe_float (some "") 3 = 3 ∧
    safe_float (some "NaN") 3 = 3 ∧
    safe_float (some "NaN") 3 = 3 ∧
    safe_float (some "NaN") 3 = 3 ∧
    processar_dados_thingspeak
      (some ⟨true, true, true, true, [⟨none, none, none, none⟩]⟩) =
      some ⟨0, 7, 25, 0⟩ := by
  have h := processar_dados_normalizes
    ⟨true, true, true, true, [⟨some "1.5", some "NaN", some "abc", none⟩]⟩
    (by simp) "NaN" 3 3
  refine ⟨h.1, h.2.1, h.2.2.1, h.2.2.2.1 (by decide), h.2.2.2.2.1 (by decide), ?_, h.2.2.2.2.2.2⟩
  exact h.2.2.2.2.1 (by decide)

/-- C8: the fetcher returns `(none, false)` on every raised request
error and on missing/empty `feeds`; the success flag is `true` exactly
when the decoded body holds a nonempty `feeds` array, and a `false`
flag always comes with no data. -/
theorem buscar_dados_fails_soft (outcome : FetchOutcome) :
    ((buscar_dados_thingspeak outcome).2 = true ↔
      ∃ feeds, outcome = .success (some feeds) ∧ feeds ≠ []) ∧
    ((buscar_dados_thingspeak outcome).2 = false →
      (buscar_dados_thingspeak outcome).1 = none) ∧
    buscar_dados_thingspeak .requestError = (none, false) ∧
    buscar_dados_thingspeak .jsonError = (none, false) := by
  refine ⟨?_, ?_, rfl, rfl⟩
  · cases outcome with
    | requestError => simp [buscar_dados_thingspeak]
    | jsonError => simp [buscar_dados_thingspeak]
    | success feeds =>
      cases feeds with
      | none => simp [buscar_dados_thingspeak]
      | some l =>
        by_cases hl : l.length > 0
        · simp only [buscar_dados_thingspeak, if_pos hl]
          constructor
          · intro _
            exact ⟨l, rfl, List.length_pos.mp hl⟩
          · intro _
            trivial
        · simp only [buscar_dados_thingspeak, if_neg hl]
          constructor
          · intro h
            exact absurd h (by simp)
          · rintro ⟨feeds, heq, hfne⟩
            cases heq
            exact absurd (List.length_pos.mpr hfne) hl
  · cases outcome with
    | requestError => intro _; rfl
    | jsonError => intro _; rfl
    | success feeds =>
      cases feeds with
      | none => intro _; rfl
      | some l =>
        by_cases hl : l.length > 0
        · simp [buscar_dados_thingspeak, hl]
        · simp [buscar_dados_thingspeak, hl]

/-- Witness for `buscar_dados_fails_soft` at a concrete outcome. -/
theorem buscar_dados_fails_soft_witness :
    ((buscar_dados_thingspeak (.success none)).2 = true ↔
      ∃ feeds, FetchOutcome.success none = .success (some feeds) ∧ feeds ≠ []) ∧
    (buscar_dados_thingspeak (.success none)).1 = none := by
  have h := buscar_dados_fails_soft (.success none)
  exact ⟨h.1, h.2.1 rfl⟩

/-! ### Poll-loop bookkeeping lemmas -/

lemma processMessage_callsMade (jl : String → Option SNSEnvelope)
    (del : String → Except Unit Unit) (st : PollState) (m : SQSMessage) :
    (processMessage jl del st m).callsMade = st.callsMade := by
  unfold processMessage
  cases jl m.body with
  | none => rfl
  | some env =>
    cases del m.receiptHandle with
    | ok u => rfl
    | error e => rfl

lemma processMessage_consumed (jl : String → Option SNSEnvelope)
    (del : String → Except Unit Unit) (st : PollState) (m : SQSMessage) :
    (processMessage jl del st m).consumed = st.consumed := by
  unfold processMessage
  cases jl m.body with
  | none => rfl
  | some env =>
    cases del m.receiptHandle with
    | ok u => rfl
    | error e => rfl

lemma processMessage_notifications (jl : String → Option SNSEnvelope)
    (del : String → Except Unit Unit) (st : PollState) (m : SQSMessage) :
    (processMessage jl del st m).notifications =
      st.notifications ++ ((jl m.body).map envToNotification).toList := by
  unfold processMessage
  cases jl m.body with
  | none => simp
  | some env =>
    cases del m.receiptHandle with
    | ok u => simp
    | error e => simp

lemma processMessage_delIssued (jl : String → Option SNSEnvelope)
    (del : String → Except Unit Unit) (st : PollState) (m : SQSMessage) :
    (processMessage jl del st m).delIssued =
      st.delIssued ++ (if bodyParses jl m then [m.receiptHandle] else []) := by
  unfold processMessage bodyParses
  cases jl m.body with
  | none => simp
  | some env =>
    cases del m.receiptHandle with
    | ok u => simp
    | error e => simp

lemma processMessage_delSucceeded_sub (jl : String → Option SNSEnvelope)
    (del : String → Except Unit Unit) (st : PollState) (m : SQSMessage)
    (h : ∀ x ∈ st.delSucceeded, x ∈ st.delIssued) :
    ∀ x ∈ (processMessage jl del st m).delSucceeded,
      x ∈ (processMessage jl del st m).delIssued := by
  unfold processMessage
  cases jl m.body with
  | none => exact h
  | some env =>
    cases del m.receiptHandle with
    | ok u =>
      intro x hx
      simp only [List.mem_append, List.mem_singleton] at hx ⊢
      rcases hx with hx | hx
      · exact Or.inl (h x hx)
      · exact Or.inr hx
    | error e =>
      intro x hx
      simp only [List.mem_append, List.mem_singleton]
      exact Or.inl (h x hx)

lemma processMessage_delSucceeded_all (jl : String → Option SNSEnvelope)
    (del : String → Except Unit Unit) (st : PollState) (m : SQSMessage)
    (hdel : ∀ s, del s = .ok ()) (h : st.delSucceeded = st.delIssued) :
    (processMessage jl del st m).delSucceeded = (processMessage jl del st m).delIssued := by
  unfold processMessage
  cases jl m.body with
  | none => exact h
  | some env =>
    rw [hdel m.receiptHandle]
    simp [h]

lemma processBatch_callsMade (jl : String → Option SNSEnvelope)
    (del : String → Except Unit Unit) (msgs : List SQSMessage) :
    ∀ st, (processBatch jl del st msgs).callsMade = st.callsMade := by
  induction msgs with
  | nil => intro st; rfl
  | cons m t ih =>
    intro st
    rw [processBatch, List.foldl_cons, ← processBatch, ih, processMessage_callsMade]

lemma processBatch_consumed (jl : String → Option SNSEnvelope)
    (del : String → Except Unit Unit) (msgs : List SQSMessage) :
    ∀ st, (processBatch jl del st msgs).consumed = st.consumed := by
  induction msgs with
  | nil => intro st; rfl
  | cons m t ih =>
    intro st
    rw [processBatch, List.foldl_cons, ← processBatch, ih, processMessage_consumed]

lemma processBatch_notifications (jl : String → Option SNSEnvelope)
    (del : String → Except Unit Unit) (msgs : List SQSMessage) :
    ∀ st, (processBatch jl del st msgs).notifications =
      st.notifications ++ msgs.filterMap (fun m => (jl m.body).map envToNotification) := by
  induction msgs with
  | nil => intro st; simp [processBatch]
  | cons m t ih =>
    intro st
    rw [processBatch, List.foldl_cons, ← processBatch, ih, processMessage_notifications]
    cases hj : jl m.body with
    | none => simp [List.filterMap_cons, hj]
    | some env => simp [List.filterMap_cons, hj]

lemma processBatch_delIssued (jl : String → Option SNSEnvelope)
    (del : String → Except Unit Unit) (msgs : List SQSMessage) :
    ∀ st, (processBatch jl del st msgs).delIssued =
      st.delIssued ++ (msgs.filter (bodyParses jl)).map (fun m => m.receiptHandle) := by
  induction msgs with
  | nil => intro st; simp [processBatch]
  | cons m t ih =>
    intro st
    rw [processBatch, List.foldl_cons, ← processBatch, ih, processMessage_delIssued]
    by_cases hb : bodyParses jl m
    · simp [List.filter_cons, hb]
    · simp [List.filter_cons, hb]

lemma processBatch_delSucceeded_sub (jl : String → Option SNSEnvelope)
    (del : String → Except Unit Unit) (msgs : List SQSMessage) :
    ∀ st, (∀ x ∈ st.delSucceeded, x ∈ st.delIssued) →
      ∀ x ∈ (processBatch jl del st msgs).delSucceeded,
        x ∈ (processBatch jl del st msgs).delIssued := by
  induction msgs with
  | nil => intro st h; exact h
  | cons m t ih =>
    intro st h
    rw [processBatch, List.foldl_cons, ← processBatch]
    exact ih _ (processMessage_delSucceeded_sub jl del st m h)

lemma processBatch_delSucceeded_all (jl : String → Option SNSEnvelope)
    (del : String → Except Unit Unit) (msgs : List SQSMessage)
    (hdel : ∀ s, del s = .ok ()) :
    ∀ st, st.delSucceeded = st.delIssued →
      (processBatch jl del st msgs).delSucceeded = (processBatch jl del st msgs).delIssued := by
  induction msgs with
  | nil => intro st h; exact h
  | cons m t ih =>
    intro st h
    rw [processBatch, List.foldl_cons, ← processBatch]
    exact ih _ (processMessage_delSucceeded_all jl del st m hdel h)

lemma pollLoop_callsMade_content (client : SQSClient) (jl : String → Option SNSEnvelope)
    (k : ℕ) (fuel : ℕ) :
    ∀ st : PollState, (∀ c ∈ st.callsMade, c = k) →
      ∀ c ∈ (pollLoop client jl k fuel st).callsMade, c = k := by
  induction fuel with
  | zero => intro st h; exact h
  | succ f ih =>
    intro st h
    have h1 : ∀ c ∈ st.callsMade ++ [k], c = k := by
      intro c hc
      rcases List.mem_append.mp hc with hc | hc
      · exact h c hc
      · simpa using hc
    simp only [pollLoop]
    cases hr : client.receiveMessage st.callsMade.length k with
    | error e => exact h1
    | ok msgs =>
      dsimp only
      by_cases hemp : msgs.isEmpty
      · rw [if_pos hemp]
        exact h1
      · rw [if_neg hemp]
        by_cases hlen : msgs.length < k
        · rw [if_pos hlen]
          intro c hc
          rw [processBatch_callsMade] at hc
          exact h1 c hc
        · rw [if_neg hlen]
          apply ih
          intro c hc
          rw [processBatch_callsMade] at hc
          exact h1 c hc

lemma pollLoop_callsMade_length (client : SQSClient) (jl : String → Option SNSEnvelope)
    (k : ℕ) (fuel : ℕ) :
    ∀ st : PollState,
      (pollLoop client jl k fuel st).callsMade.length ≤ st.callsMade.length + fuel := by
  induction fuel with
  | zero => intro st; simp [pollLoop]
  | succ f ih =>
    intro st
    simp only [pollLoop]
    cases hr : client.receiveMessage st.callsMade.length k with
    | error e =>
      dsimp only
      rw [List.length_append, List.length_singleton]
      omega
    | ok msgs =>
      dsimp only
      by_cases hemp : msgs.isEmpty
      · rw [if_pos hemp]
        dsimp only
        rw [List.length_append, List.length_singleton]
        omega
      · rw [if_neg hemp]
        by_cases hlen : msgs.length < k
        · rw [if_pos hlen, processBatch_callsMade]
          dsimp only
          rw [List.length_append, List.length_singleton]
          omega
        · rw [if_neg hlen]
          calc (pollLoop client jl k f _).callsMade.length
              ≤ _ + f := ih _
            _ ≤ st.callsMade.length + (f + 1) := by
                rw [processBatch_callsMade]
                dsimp only
                rw [List.length_append, List.length_singleton]
                omega

lemma pollLoop_notifications_inv (client : SQSClient) (jl : String → Option SNSEnvelope)
    (k : ℕ) (fuel : ℕ) :
    ∀ st : PollState,
      st.notifications = st.consumed.filterMap (fun m => (jl m.body).map envToNotification) →
      (pollLoop client jl k fuel st).notifications =
        (pollLoop client jl k fuel st).consumed.filterMap
          (fun m => (jl m.body).map envToNotification) := by
  induction fuel with
  | zero => intro st h; exact h
  | succ f ih =>
    intro st h
    simp only [pollLoop]
    cases hr : client.receiveMessage st.callsMade.length k with
    | error e => exact h
    | ok msgs =>
      dsimp only
      have hstep :
          (processBatch jl client.deleteMessage
            { st with callsMade := st.callsMade ++ [k], consumed := st.consumed ++ msgs }
            msgs).notifications =
          (processBatch jl client.deleteMessage
            { st with callsMade := st.callsMade ++ [k], consumed := st.consumed ++ msgs }
            msgs).consumed.filterMap (fun m => (jl m.body).map envToNotification) := by
        rw [processBatch_notifications, processBatch_consumed]
        dsimp only
        rw [h, List.filterMap_append]
      by_cases hemp : msgs.isEmpty
      · rw [if_pos hemp]
        exact h
      · rw [if_neg hemp]
        by_cases hlen : msgs.length < k
        · rw [if_pos hlen]
          exact hstep
        · rw [if_neg hlen]
          exact ih _ hstep

lemma pollLoop_delIssued_inv (client : SQSClient) (jl : String → Option SNSEnvelope)
    (k : ℕ) (fuel : ℕ) :
    ∀ st : PollState,
      st.delIssued = (st.consumed.filter (bodyParses jl)).map (fun m => m.receiptHandle) →
      (pollLoop client jl k fuel st).delIssued =
        ((pollLoop client jl k fuel st).consumed.filter (bodyParses jl)).map
          (fun m => m.receiptHandle) := by
  induction fuel with
  | zero => intro st h; exact h
  | succ f ih =>
    intro st h
    simp only [pollLoop]
    cases hr : client.receiveMessage st.callsMade.length k with
    | error e => exact h
    | ok msgs =>
      dsimp only
      have hstep :
          (processBatch jl client.deleteMessage
            { st with callsMade := st.callsMade ++ [k], consumed := st.consumed ++ msgs }
            msgs).delIssued =
          ((processBatch jl client.deleteMessage
            { st with callsMade := st.callsMade ++ [k], consumed := st.consumed ++ msgs }
            msgs).consumed.filter (bodyParses jl)).map (fun m => m.receiptHandle) := by
        rw [processBatch_delIssued, processBatch_consumed]
        dsimp only
        rw [h, List.filter_append, List.map_append]
      by_cases hemp : msgs.isEmpty
      · rw [if_pos hemp]
        exact h
      · rw [if_neg hemp]
        by_cases hlen : msgs.length < k
        · rw [if_pos hlen]
          exact hstep
        · rw [if_neg hlen]
          exact ih _ hstep

lemma pollLoop_delSucceeded_sub (client : SQSClient) (jl : String → Option SNSEnvelope)
    (k : ℕ) (fuel : ℕ) :
    ∀ st : PollState, (∀ x ∈ st.delSucceeded, x ∈ st.delIssued) →
      ∀ x ∈ (pollLoop client jl k fuel st).delSucceeded,
        x ∈ (pollLoop client jl k fuel st).delIssued := by
  induction fuel with
  | zero => intro st h; exact h
  | succ f ih =>
    intro st h
    simp only [pollLoop]
    cases hr : client.receiveMessage st.callsMade.length k with
    | error e => exact h
    | ok msgs =>
      dsimp only
      have hstep := processBatch_delSucceeded_sub jl client.deleteMessage msgs
        { st with callsMade := st.callsMade ++ [k], consumed := st.consumed ++ msgs } h
      by_cases hemp : msgs.isEmpty
      · rw [if_pos hemp]
        exact h
      · rw [if_neg hemp]
        by_cases hlen : msgs.length < k
        · rw [if_pos hlen]
          exact hstep
        · rw [if_neg hlen]
          exact ih _ hstep

lemma pollLoop_delSucceeded_all (client : SQSClient) (jl : String → Option SNSEnvelope)
    (k : ℕ) (fuel : ℕ) (hdel : ∀ s, client.deleteMessage s = .ok ()) :
    ∀ st : PollState, st.delSucceeded = st.delIssued →
      (pollLoop client jl k fuel st).delSucceeded =
        (pollLoop client jl k fuel st).delIssued := by
  induction fuel with
  | zero => intro st h; exact h
  | succ f ih =>
    intro st h
    simp only [pollLoop]
    cases hr : client.receiveMessage st.callsMade.length k with
    | error e => exact h
    | ok msgs =>
      dsimp only
      have hstep := processBatch_delSucceeded_all jl client.deleteMessage msgs hdel
        { st with callsMade := st.callsMade ++ [k], consumed := st.consumed ++ msgs } h
      by_cases hemp : msgs.isEmpty
      · rw [if_pos hemp]
        exact h
      · rw [if_neg hemp]
        by_cases hlen : msgs.length < k
        · rw [if_pos hlen]
          exact hstep
        · rw [if_neg hlen]
          exact ih _ hstep

lemma length_filterMap_eq_filter (jl : String → Option SNSEnvelope) (l : List SQSMessage) :
    (l.filterMap (fun m => (jl m.body).map envToNotification)).length =
      ((l.filter (bodyParses jl)).map (fun m => m.receiptHandle)).length := by
  induction l with
  | nil => rfl
  | cons m t ihl =>
    cases hj : jl m.body with
    | none => simp [List.filterMap_cons, List.filter_cons, bodyParses, hj, ihl]
    | some env => simp [List.filterMap_cons, List.filter_cons, bodyParses, hj, ihl]

/-- One loop step on a raised receive call returns the state collected
so far (only the bookkeeping list of issued calls grows). -/
lemma pollLoop_error_step (client : SQSClient) (jl : String → Option SNSEnvelope)
    (k fuel : ℕ) (st : PollState)
    (herr : client.receiveMessage st.callsMade.length k = .error ()) :
    pollLoop client jl k (fuel + 1) st = { st with callsMade := st.callsMade ++ [k] } := by
  simp only [pollLoop, herr]

/-- Fuel-independence: once the batch at relative call index `n` is not
full, every fuel of at least `n + 1` gives the same result. -/
lemma pollLoop_stable (client : SQSClient) (jl : String → Option SNSEnvelope) (k : ℕ) :
    ∀ (n : ℕ) (fuel : ℕ) (st : PollState),
      fullBatch client k (st.callsMade.length + n) = false → n + 1 ≤ fuel →
      pollLoop client jl k fuel st = pollLoop client jl k (n + 1) st := by
  intro n
  induction n with
  | zero =>
    intro fuel st hstop hfuel
    obtain ⟨f, rfl⟩ : ∃ f, fuel = f + 1 := ⟨fuel - 1, by omega⟩
    simp only [pollLoop]
    rw [Nat.add_zero] at hstop
    unfold fullBatch at hstop
    cases hr : client.receiveMessage st.callsMade.length k with
    | error e => rfl
    | ok msgs =>
      rw [hr] at hstop
      dsimp only
      by_cases hemp : msgs.isEmpty
      · rw [if_pos hemp, if_pos hemp]
      · rw [if_neg hemp, if_neg hemp]
        have hlen : msgs.length < k := by
          rcases Bool.and_eq_false_iff.mp hstop with h | h
          · simp at h
            exact absurd (by simp [h] : msgs.isEmpty = true) hemp
          · simp at h
            omega
        rw [if_pos hlen, if_pos hlen]
  | succ n ihn =>
    intro fuel st hstop hfuel
    obtain ⟨f, rfl⟩ : ∃ f, fuel = f + 1 := ⟨fuel - 1, by omega⟩
    simp only [pollLoop]
    cases hr : client.receiveMessage st.callsMade.length k with
    | error e => rfl
    | ok msgs =>
      dsimp only
      by_cases hemp : msgs.isEmpty
      · rw [if_pos hemp, if_pos hemp]
      · rw [if_neg hemp, if_neg hemp]
        by_cases hlen : msgs.length < k
        · rw [if_pos hlen, if_pos hlen]
        · rw [if_neg hlen, if_neg hlen]
          apply ihn
          · rw [processBatch_callsMade]
            dsimp only
            rw [List.length_append]
            simpa [Nat.add_assoc, Nat.add_comm 1 n] using hstop
          · omega

/-- C5: every receive call requests exactly `min(max_messages, 10)`
messages; once call `n` returns a short or empty batch (or raises), the
result is fuel-independent and at most `n + 1` receive calls are made;
and the returned notifications are the parses of the received messages
in receipt order. -/
theorem get_all_notifications_bounded (client : SQSClient) (jl : String → Option SNSEnvelope)
    (max_messages n fuel : ℕ)
    (hstop : fullBatch client (min max_messages 10) n = false) (hfuel : n + 1 ≤ fuel) :
    (∀ c ∈ (runPoll client jl max_messages fuel).callsMade, c = min max_messages 10) ∧
    runPoll client jl max_messages fuel = runPoll client jl max_messages (n + 1) ∧
    (runPoll client jl max_messages fuel).callsMade.length ≤ n + 1 ∧
    (runPoll client jl max_messages fuel).notifications =
      (runPoll client jl max_messages fuel).consumed.filterMap
        (fun m => (jl m.body).map envToNotification) := by
  simp only [runPoll]
  have hstable := pollLoop_stable client jl (min max_messages 10) n fuel initPollState
    (by simpa [initPollState] using hstop) hfuel
  refine ⟨?_, hstable, ?_, ?_⟩
  · exact pollLoop_callsMade_content client jl (min max_messages 10) fuel initPollState
      (by intro c hc; simp [initPollState] at hc)
  · rw [hstable]
    have := pollLoop_callsMade_length client jl (min max_messages 10) (n + 1) initPollState
    simpa [initPollState] using this
  · exact pollLoop_notifications_inv client jl (min max_messages 10) fuel initPollState rfl

/-- Witness for `get_all_notifications_bounded`: a queue whose first
batch holds one message stops after one receive call. -/
theorem get_all_notifications_bounded_witness :
    (∀ c ∈ (runPoll delOkClient jsonLoadsConst 10 3).callsMade, c = min 10 10) ∧
    runPoll delOkClient jsonLoadsConst 10 3 = runPoll delOkClient jsonLoadsConst 10 (0 + 1) ∧
    (runPoll delOkClient jsonLoadsConst 10 3).callsMade.length ≤ 0 + 1 ∧
    (runPoll delOkClient jsonLoadsConst 10 3).notifications =
      (runPoll delOkClient jsonLoadsConst 10 3).consumed.filterMap
        (fun m => (jsonLoadsConst m.body).map envToNotification) :=
  get_all_notifications_bounded delOkClient jsonLoadsConst 10 0 3 (by decide) (by omega)

/-- C6: the poller returns `[]` without a client; a batch message whose
body fails to parse is skipped while the rest of the batch is still
processed; and a raised receive call returns exactly the notifications
collected so far. -/
theorem get_all_notifications_fails_soft :
    (∀ (jl : String → Option SNSEnvelope) (max_messages fuel : ℕ),
      get_all_notifications none jl max_messages fuel = []) ∧
    (∀ (jl : String → Option SNSEnvelope) (del : String → Except Unit Unit)
      (st : PollState) (pre : List SQSMessage) (bad : SQSMessage) (post : List SQSMessage),
      jl bad.body = none →
      processBatch jl del st (pre ++ bad :: post) = processBatch jl del st (pre ++ post)) ∧
    (∀ (client : SQSClient) (jl : String → Option SNSEnvelope) (k : ℕ) (st : PollState)
      (fuel : ℕ), client.receiveMessage st.callsMade.length k = .error () →
      (pollLoop client jl k (fuel + 1) st).notifications = st.notifications) := by
  refine ⟨fun jl maxm fuel => rfl, ?_, ?_⟩
  · intro jl del st pre bad post hbad
    unfold processBatch
    rw [List.foldl_append, List.foldl_append, List.foldl_cons]
    have hskip : processMessage jl del (List.foldl (processMessage jl del) st pre) bad =
        List.foldl (processMessage jl del) st pre := by
      unfold processMessage
      rw [hbad]
    rw [hskip]
  · intro client jl k st fuel herr
    rw [pollLoop_error_step client jl k fuel st herr]

/-- Witness for `get_all_notifications_fails_soft` at concrete clients
and parsers. -/
theorem get_all_notifications_fails_soft_witness :
    get_all_notifications none jsonLoadsConst 5 3 = [] ∧
    processBatch jsonLoadsNone (fun _ => Except.ok ()) initPollState
        ([] ++ (⟨"r", "b"⟩ : SQSMessage) :: []) =
      processBatch jsonLoadsNone (fun _ => Except.ok ()) initPollState ([] ++ []) ∧
    (pollLoop errClient jsonLoadsConst 10 (2 + 1) initPollState).notifications =
      initPollState.notifications :=
  ⟨get_all_notifications_fails_soft.1 jsonLoadsConst 5 3,
    get_all_notifications_fails_soft.2.1 jsonLoadsNone (fun _ => Except.ok ())
      initPollState [] ⟨"r", "b"⟩ [] rfl,
    get_all_notifications_fails_soft.2.2 errClient jsonLoadsConst 10 initPollState 2 rfl⟩

/-- C10 counterexample: with a client whose delete calls raise, the
returned list holds one notification while no queue message was
deleted (the delete was issued but failed), so the claimed one-to-one
correspondence between returned notifications and deleted messages
fails. -/
theorem delete_correspondence_counterexample :
    (runPoll delFailClient jsonLoadsConst 10 5).notifications.length = 1 ∧
    (runPoll delFailClient jsonLoadsConst 10 5).delIssued = ["rh1"] ∧
    (runPoll delFailClient jsonLoadsConst 10 5).delSucceeded = [] := by
  refine ⟨rfl, rfl, rfl⟩

/-- C10 (amended): deletes are issued exactly for the messages whose
body parsed (hence after the notification was appended, and never for
an unparseable message); the returned notifications are in one-to-one
length correspondence with the issued deletes; every successful delete
was an issued delete; and when every delete call succeeds the deleted
messages are exactly the issued ones. -/
theorem delete_issued_after_parse (client : SQSClient) (jl : String → Option SNSEnvelope)
    (max_messages fuel : ℕ) :
    (runPoll client jl max_messages fuel).delIssued =
      ((runPoll client jl max_messages fuel).consumed.filter (bodyParses jl)).map
        (fun m => m.receiptHandle) ∧
    (runPoll client jl max_messages fuel).notifications.length =
      (runPoll client jl max_messages fuel).delIssued.length ∧
    (∀ x ∈ (runPoll client jl max_messages fuel).delSucceeded,
      x ∈ (runPoll client jl max_messages fuel).delIssued) ∧
    ((∀ s, client.deleteMessage s = .ok ()) →
      (runPoll client jl max_messages fuel).delSucceeded =
        (runPoll client jl max_messages fuel).delIssued) := by
  simp only [runPoll]
  have hiss := pollLoop_delIssued_inv client jl (min max_messages 10) fuel initPollState rfl
  have hnot := pollLoop_notifications_inv client jl (min max_messages 10) fuel initPollState rfl
  refine ⟨hiss, ?_,
    pollLoop_delSucceeded_sub client jl (min max_messages 10) fuel initPollState
      (by intro x hx; simp [initPollState] at hx),
    fun hdel => pollLoop_delSucceeded_all client jl (min max_messages 10) fuel hdel
      initPollState rfl⟩
  rw [hnot, hiss]
  exact length_filterMap_eq_filter jl _

/-- Witness for `delete_issued_after_parse` at a concrete client whose
deletes succeed. -/
theorem delete_issued_after_parse_witness :
    ("rh1" ∈ (runPoll delOkClient jsonLoadsConst 10 3).delIssued) ∧
    ((runPoll delOkClient jsonLoadsConst 10 3).delSucceeded =
      (runPoll delOkClient jsonLoadsConst 10 3).delIssued) ∧
    (runPoll delOkClient jsonLoadsConst 10 3).notifications.length =
      (runPoll delOkClient jsonLoadsConst 10 3).delIssued.length := by
  have h := delete_issued_after_parse delOkClient jsonLoadsConst 10 3
  exact ⟨h.2.2.1 "rh1" (by decide), h.2.2.2 (fun s => rfl), h.2.1⟩

/-! ### Reconciler lemmas -/

lemma strict_head_lt (p : ℤ × QRow) (l : Series)
    (h : List.Chain' (fun a b => a.1 < b.1) (p :: l)) : ∀ q ∈ l, p.1 < q.1 := by
  induction l generalizing p with
  | nil => intro q hq; cases hq
  | cons a l ih =>
    intro q hq
    have hpa : p.1 < a.1 := (List.chain'_cons.mp h).1
    rcases List.mem_cons.mp hq with rfl | hq
    · exact hpa
    · exact lt_trans hpa (ih a (List.chain'_cons.mp h).2 q hq)

lemma map_overwrite_id (t : ℤ) (r : QRow) :
    ∀ l : Series, (∀ x ∈ l, x.1 ≠ t) →
      l.map (fun p => if p.1 = t then (p.1, r) else p) = l := by
  intro l
  induction l with
  | nil => intro _; rfl
  | cons q l ih =>
    intro h
    rw [List.map_cons, if_neg (h q (List.mem_cons_self q l)),
      ih (fun x hx => h x (List.mem_cons_of_mem q hx))]

/-- Overwriting a strictly sorted series with one of its own samples
changes nothing. -/
lemma overwriteAt_self :
    ∀ (s : Series) (p : ℤ × QRow), List.Chain' (fun a b => a.1 < b.1) s → p ∈ s →
      overwriteAt p.1 p.2 s = s := by
  intro s
  induction s with
  | nil => intro p _ hp; cases hp
  | cons q l ih =>
    intro p hchain hp
    unfold overwriteAt
    rcases List.mem_cons.mp hp with rfl | hp
    · rw [List.map_cons, if_pos rfl,
        map_overwrite_id p.1 p.2 l (fun x hx => ne_of_gt (strict_head_lt p l hchain x hx))]
    · rw [List.map_cons, if_neg (ne_of_lt (strict_head_lt q l hchain p hp))]
      have := ih p hchain.tail hp
      unfold overwriteAt at this
      rw [this]

/-- Folding a series' own samples through the merge step is the
identity when its timestamps are strictly increasing. -/
lemma foldl_mergeStep_self :
    ∀ (real comb : Series), (∀ p ∈ real, p ∈ comb) →
      List.Chain' (fun a b => a.1 < b.1) comb →
      real.foldl mergeStep comb = comb := by
  intro real
  induction real with
  | nil => intro comb _ _; rfl
  | cons p t ih =>
    intro comb hsub hchain
    rw [List.foldl_cons]
    have hp : p ∈ comb := hsub p (List.mem_cons_self p t)
    have hstep : mergeStep comb p = comb := by
      unfold mergeStep
      rw [if_pos (List.mem_map.mpr ⟨p, hp, rfl⟩)]
      exact overwriteAt_self comb p hchain hp
    rw [hstep]
    exact ih comb (fun q hq => hsub q (List.mem_cons_of_mem p hq)) hchain

/-- Sorting an already strictly sorted series is the identity. -/
lemma sort_index_sorted :
    ∀ s : Series, List.Chain' (fun a b => a.1 < b.1) s → sort_index s = s := by
  intro s
  induction s with
  | nil => intro _; rfl
  | cons p l ih =>
    intro h
    unfold sort_index
    rw [List.foldr_cons]
    have htail : List.foldr insertByTime [] l = l := ih h.tail
    rw [htail]
    cases l with
    | nil => rfl
    | cons q t =>
      unfold insertByTime
      rw [if_pos (le_of_lt (List.chain'_cons.mp h).1)]

/-- C9 counterexample: on the series `[(1, r1), (0, r0)]` (timestamps
out of order), merging it into itself re-sorts, so the result differs
from the input: the claim's "for every time-indexed series" fails. -/
theorem combinar_idempotent_counterexample :
    combinar_dados_mockados_e_reais
        [((1 : ℤ), QRow.mk 1 1 1 1), ((0 : ℤ), QRow.mk 0 0 0 0)]
        [((1 : ℤ), QRow.mk 1 1 1 1), ((0 : ℤ), QRow.mk 0 0 0 0)] =
      [((0 : ℤ), QRow.mk 0 0 0 0), ((1 : ℤ), QRow.mk 1 1 1 1)] ∧
    combinar_dados_mockados_e_reais
        [((1 : ℤ), QRow.mk 1 1 1 1), ((0 : ℤ), QRow.mk 0 0 0 0)]
        [((1 : ℤ), QRow.mk 1 1 1 1), ((0 : ℤ), QRow.mk 0 0 0 0)] ≠
      [((1 : ℤ), QRow.mk 1 1 1 1), ((0 : ℤ), QRow.mk 0 0 0 0)] := by
  constructor
  · rfl
  · intro h
    injection h with h1 h2
    simp at h1

/-- C9 (amended): for every series whose timestamps are strictly
increasing, merging it as the real series into itself as the mocked
series yields it unchanged — real samples overwrite the matching
mocked samples with the same values and the final re-sort is the
identity. -/
theorem combinar_idempotent (S : Series)
    (h : List.Chain' (fun a b => a.1 < b.1) S) :
    combinar_dados_mockados_e_reais S S = S := by
  unfold combinar_dados_mockados_e_reais
  rw [foldl_mergeStep_self S S (fun p hp => hp) h]
  exact sort_index_sorted S h

/-- Witness for `combinar_idempotent` on a concrete sorted series. -/
theorem combinar_idempotent_witness :
    combinar_dados_mockados_e_reais
        [((0 : ℤ), QRow.mk 1 2 3 4), ((5 : ℤ), QRow.mk 5 6 7 8)]
        [((0 : ℤ), QRow.mk 1 2 3 4), ((5 : ℤ), QRow.mk 5 6 7 8)] =
      [((0 : ℤ), QRow.mk 1 2 3 4), ((5 : ℤ), QRow.mk 5 6 7 8)] :=
  combinar_idempotent _
    (List.chain'_cons.mpr ⟨by norm_num, List.chain'_singleton _⟩)

end MonitorHydric
